import Mathlib

/-!
Verification of the gemini-audio-transcriber core against its design
specification.

The TypeScript sources are shallowly embedded below.  Numeric token counts
and file sizes are modelled as `Nat`, dollar amounts as `ℚ` (the pricing
table holds exact decimal rates, so rational arithmetic mirrors the
source's arithmetic on these small exact values), strings as Lean
`String`, and every fallible or effectful remote interaction as an
explicit environment function supplying the outcome of each call, so the
control flow (retry loops, polling loops, per-format error isolation) can
be re-executed in Lean exactly as written in the source.
-/

namespace GeminiTranscriber

/-! ## Configuration constants (src/config.ts) -/

/-- From src/config.ts: `INLINE_UPLOAD_MAX_BYTES = 15 * 1024 * 1024`. -/
def INLINE_UPLOAD_MAX_BYTES : Nat := 15 * 1024 * 1024

/-- From src/config.ts: `MAX_AUDIO_FILE_SIZE = 500 * 1024 * 1024`. -/
def MAX_AUDIO_FILE_SIZE : Nat := 500 * 1024 * 1024

/-- Shape of src/config.ts `API_CONFIG` (timeoutMs is unused by the
retry loop and omitted). -/
structure ApiConfig where
  maxRetries : Nat
  retryDelayMs : Nat
deriving DecidableEq

/-- From src/config.ts: `API_CONFIG = { maxRetries: 3, retryDelayMs: 1000 }`. -/
def API_CONFIG : ApiConfig := { maxRetries := 3, retryDelayMs := 1000 }

/-- Shape of src/config.ts `FILES_API_CONFIG`. -/
structure FilesApiConfig where
  pollIntervalMs : Nat
  maxPollAttempts : Nat
deriving DecidableEq

/-- From src/config.ts: `FILES_API_CONFIG = { pollIntervalMs: 2000, maxPollAttempts: 60 }`. -/
def FILES_API_CONFIG : FilesApiConfig := { pollIntervalMs := 2000, maxPollAttempts := 60 }

/-! ## Cost model (src/api/pricing.ts, src/config.ts) -/

/-- The two supported model identifiers (src/types.ts `ModelChoice`). -/
inductive ModelChoice
  | gemini25pro
  | geminiFlashLatest
deriving DecidableEq

/-- The literal model identifier strings. -/
def modelChoiceName : ModelChoice → String
  | .gemini25pro => "gemini-2.5-pro"
  | .geminiFlashLatest => "gemini-flash-latest"

/-- src/types.ts `ModelPricing`; dollar rates as exact rationals. -/
structure ModelPricing where
  inputPerMillion : ℚ
  outputPerMillion : ℚ
  assumption : String
deriving DecidableEq

/-- src/config.ts `MODEL_PRICING` table.  The TypeScript `Record` is total
over `ModelChoice`, so it is a total function here. -/
def MODEL_PRICING : ModelChoice → ModelPricing
  | .gemini25pro =>
      { inputPerMillion := 1.25, outputPerMillion := 10,
        assumption := "Standard tier, prompts <= 200k tokens." }
  | .geminiFlashLatest =>
      { inputPerMillion := 1.0, outputPerMillion := 2.5,
        assumption := "Gemini 2.5 Flash standard tier, audio input pricing." }

/-- Gemini `UsageMetadata`: the API may omit individual counts, which the
source reads with a `= 0` default, hence `Option Nat` fields. -/
structure UsageMetadata where
  promptTokenCount : Option Nat
  candidatesTokenCount : Option Nat
  totalTokenCount : Option Nat
deriving DecidableEq

/-- src/types.ts `CostEstimate`. -/
structure CostEstimate where
  inputCost : ℚ
  outputCost : ℚ
  totalCost : ℚ
  assumption : String
deriving DecidableEq

/-- src/api/pricing.ts `estimateCost`: `none` when usage is absent,
otherwise per-million-token linear pricing with defaulted counts. -/
def estimateCost (modelChoice : ModelChoice) (usage : Option UsageMetadata) :
    Option CostEstimate :=
  match usage with
  | none => none
  | some u =>
    let pricing := MODEL_PRICING modelChoice
    let promptTokenCount : ℚ := (u.promptTokenCount.getD 0 : Nat)
    let candidatesTokenCount : ℚ := (u.candidatesTokenCount.getD 0 : Nat)
    let inputCost := promptTokenCount / 1000000 * pricing.inputPerMillion
    let outputCost := candidatesTokenCount / 1000000 * pricing.outputPerMillion
    some { inputCost := inputCost, outputCost := outputCost,
           totalCost := inputCost + outputCost,
           assumption := pricing.assumption }

/-! ## Upload strategy selection (src/api/gemini.ts line 221) -/

/-- The two upload strategies of the spec's Upload Strategy Selector. -/
inductive UploadStrategy
  | Inline
  | Staged
deriving DecidableEq

/-- The strategy decision of src/api/gemini.ts:
`useInlineUpload = fileStats.size <= INLINE_UPLOAD_MAX_BYTES`. -/
def selectStrategy (fileSizeBytes : Nat) : UploadStrategy :=
  if fileSizeBytes ≤ INLINE_UPLOAD_MAX_BYTES then .Inline else .Staged

/-- The boolean the orchestrator actually computes at line 221. -/
def useInlineUpload (fileSizeBytes : Nat) : Bool :=
  decide (fileSizeBytes ≤ INLINE_UPLOAD_MAX_BYTES)

/-! ## String helpers mirroring the JavaScript primitives used -/

/-- JavaScript `String.prototype.includes`: substring containment. -/
def containsSub (s pat : String) : Bool :=
  s.toList.tails.any (fun t => pat.toList.isPrefixOf t)

/-- The ASCII whitespace characters of the JavaScript `\s` class /
`trim` (Unicode whitespace beyond ASCII is not used by this codebase). -/
def isJsSpace (c : Char) : Bool :=
  c == ' ' || c == '\t' || c == '\n' || c == '\r' ||
  c == Char.ofNat 11 || c == Char.ofNat 12

/-- JavaScript `trim` on a character list. -/
def trimChars (cs : List Char) : List Char :=
  ((cs.dropWhile isJsSpace).reverse.dropWhile isJsSpace).reverse

/-- JavaScript `String.prototype.trim`. -/
def jsTrim (s : String) : String := ⟨trimChars s.toList⟩

/-- JavaScript `String.prototype.trimEnd`. -/
def jsTrimEnd (s : String) : String := ⟨(s.toList.reverse.dropWhile isJsSpace).reverse⟩

/-! ## Error classification (src/api/gemini.ts `isRetryableError`) -/

/-- src/api/gemini.ts lines 166-177: an error is retryable exactly when
its message contains one of the five transient signatures. -/
def isRetryableError (errorMessage : String) : Bool :=
  containsSub errorMessage "429" ||
  containsSub errorMessage "503" ||
  containsSub errorMessage "ECONNRESET" ||
  containsSub errorMessage "ETIMEDOUT" ||
  containsSub errorMessage "rate limit"

/-! ## Transcription orchestrator (src/api/gemini.ts `transcribeAndDiarize`)

The two remote interactions of one orchestration call are supplied by an
environment: `stagingOutcome n` is what the n-th invocation of
`uploadAudioFileViaFilesApi` would yield (error message or file URI), and
`callOutcome a` is what `model.generateContent` yields on attempt `a`
(thrown error message, or response text plus optional usage metadata). -/

/-- Outcome of one `generateContent` call. -/
inductive CallOutcome
  | success (text : String) (usage : Option UsageMetadata)
  | failure (message : String)

/-- Environment feeding the orchestrator's remote calls. -/
structure OrchestratorEnv where
  stagingOutcome : Nat → Except String String
  callOutcome : Nat → CallOutcome

/-- Result of `transcribeAndDiarize`: the returned
`{ transcription, usageMetadata }` or the message of the final throw. -/
inductive OrchestratorResult
  | ok (transcription : String) (usage : Option UsageMetadata)
  | failed (message : String)
deriving DecidableEq

/-- Observable trace of one orchestration call: its result, how many
times staging was invoked, and the backoff delays awaited (ms). -/
structure OrchestratorTrace where
  result : OrchestratorResult
  stagingCalls : Nat
  delays : List Nat
deriving DecidableEq

/-- Mutable state threaded through the retry loop: `fileUri` and the
bookkeeping counters of the trace. -/
structure LoopState where
  fileUri : Option String
  stagingCalls : Nat
  delays : List Nat
deriving DecidableEq

/-- The final throw at src/api/gemini.ts lines 283-285. -/
def finalFailureMessage (maxRetries : Nat) (lastError : String) : String :=
  "Failed to transcribe after " ++ toString maxRetries ++ " attempts: " ++ lastError

/-- Lines 245-251 of src/api/gemini.ts: issue the call; an empty or
whitespace-only transcription becomes the thrown error
`API returned empty transcription`. -/
def attemptCall (env : OrchestratorEnv) (attempt : Nat) :
    Except String (String × Option UsageMetadata) :=
  match env.callOutcome attempt with
  | .failure message => .error message
  | .success text usage =>
    if text.isEmpty || (jsTrim text).length == 0 then
      .error "API returned empty transcription"
    else
      .ok (text, usage)

/-- Lines 228-251: one iteration of the try block.  When the strategy is
staged and no file URI is held yet, staging runs first (its failure is
the attempt's thrown error and the call is not reached); otherwise the
call is issued directly. -/
def attemptOnce (env : OrchestratorEnv) (inlineUpload : Bool) (attempt : Nat)
    (st : LoopState) : Except String (String × Option UsageMetadata) × LoopState :=
  if !inlineUpload && st.fileUri.isNone then
    match env.stagingOutcome st.stagingCalls with
    | .error e => (.error e, { st with stagingCalls := st.stagingCalls + 1 })
    | .ok uri =>
        (attemptCall env attempt,
         { st with fileUri := some uri, stagingCalls := st.stagingCalls + 1 })
  else
    (attemptCall env attempt, st)

/-- Lines 224-281: the retry loop.  `fuel` is the number of remaining
iterations (`maxRetries - attempt + 1`); a caught error retries only when
`attempt < maxRetries` and `isRetryableError`, awaiting
`retryDelayMs * attempt` first, and otherwise breaks to the final throw. -/
def transcribeGo (env : OrchestratorEnv) (inlineUpload : Bool) (cfg : ApiConfig) :
    Nat → Nat → LoopState → String → OrchestratorTrace
  | 0, _attempt, st, lastError =>
      { result := .failed (finalFailureMessage cfg.maxRetries lastError),
        stagingCalls := st.stagingCalls, delays := st.delays }
  | fuel + 1, attempt, st, _lastError =>
      match attemptOnce env inlineUpload attempt st with
      | (.ok (text, usage), st') =>
          { result := .ok text usage,
            stagingCalls := st'.stagingCalls, delays := st'.delays }
      | (.error e, st') =>
          if attempt < cfg.maxRetries && isRetryableError e then
            transcribeGo env inlineUpload cfg fuel (attempt + 1)
              { st' with delays := st'.delays ++ [cfg.retryDelayMs * attempt] } e
          else
            { result := .failed (finalFailureMessage cfg.maxRetries e),
              stagingCalls := st'.stagingCalls, delays := st'.delays }

/-- src/api/gemini.ts `transcribeAndDiarize`, from the strategy decision
at line 221 onward, with `API_CONFIG` as in src/config.ts. -/
def transcribeAndDiarize (env : OrchestratorEnv) (fileSizeBytes : Nat) :
    OrchestratorTrace :=
  transcribeGo env (useInlineUpload fileSizeBytes) API_CONFIG
    API_CONFIG.maxRetries 1
    { fileUri := none, stagingCalls := 0, delays := [] } "undefined"

/-! ## Remote file stager (src/api/files.ts `uploadAudioFileViaFilesApi`)

The loop examines one remote file-state observation per iteration:
`obs 0` is the state in the upload response, and `obs (i+1)` the state
fetched by `getFile` after the i-th wait.  After `maxPollAttempts`
examined observations the function throws the timeout error, whose
message reports the state fetched last (`obs maxPollAttempts`), which
the loop never examines. -/

/-- One observed remote file state: `FileState.ACTIVE` with the file's
URI, `FileState.FAILED` with the optional error message, or any other
(still-processing) state value, carried as its display string. -/
inductive FileStateObs
  | active (uri : String)
  | failed (reason : Option String)
  | processing (label : String)
deriving DecidableEq

/-- Whether an observation is the still-processing case. -/
def FileStateObs.isProcessingState : FileStateObs → Bool
  | .processing _ => true
  | _ => false

/-- Display string of an observation, used by the timeout message. -/
def stateLabel : FileStateObs → String
  | .active _ => "ACTIVE"
  | .failed _ => "FAILED"
  | .processing label => label

/-- The two error exits of the stager. -/
inductive StagingError
  | processingFailed (reason : String)
  | timedOut (lastState : String)
deriving DecidableEq

/-- Lines 34-54 of src/api/files.ts: the polling loop, entered at
observation index `i` with `fuel` iterations remaining. -/
def pollLoop (obs : Nat → FileStateObs) : Nat → Nat → Except StagingError String
  | i, 0 => .error (.timedOut (stateLabel (obs i)))
  | i, fuel + 1 =>
    match obs i with
    | .active uri => .ok uri
    | .failed reason => .error (.processingFailed (reason.getD "unknown failure"))
    | .processing _ => pollLoop obs (i + 1) fuel

/-- src/api/files.ts `uploadAudioFileViaFilesApi` from the first state
check onward (the upload submission itself, when it throws, propagates
before this loop runs and is modelled by the orchestrator's
`stagingOutcome`). -/
def uploadAudioFileViaFilesApi (obs : Nat → FileStateObs) : Except StagingError String :=
  pollLoop obs 0 FILES_API_CONFIG.maxPollAttempts

/-- The spec's `UploadOutcome` state-machine value (spec section 3). -/
inductive UploadOutcome
  | Uploading
  | Processing (attemptCount : Nat)
  | Ready (remoteReference : String)
  | Failed (reason : String)
  | TimedOut
deriving DecidableEq

/-- Whether a state-machine value is terminal. -/
def UploadOutcome.isTerminal : UploadOutcome → Bool
  | .Ready _ => true
  | .Failed _ => true
  | .TimedOut => true
  | _ => false

/-- The transition function the src/api/files.ts loop implements, read
off its body: `Processing n` examines `obs n` while `n` is below the
attempt bound and times out otherwise; the loop exits at `Ready`,
`Failed` and `TimedOut`, so those values step to themselves. -/
def stagerStep (maxPollAttempts : Nat) (obs : Nat → FileStateObs) :
    UploadOutcome → UploadOutcome
  | .Uploading => .Processing 0
  | .Processing n =>
      if n < maxPollAttempts then
        match obs n with
        | .active uri => .Ready uri
        | .failed reason => .Failed (reason.getD "unknown failure")
        | .processing _ => .Processing (n + 1)
      else .TimedOut
  | .Ready uri => .Ready uri
  | .Failed reason => .Failed reason
  | .TimedOut => .TimedOut

/-- The terminal state-machine value a staging result denotes. -/
def outcomeOfStaging : Except StagingError String → UploadOutcome
  | .ok uri => .Ready uri
  | .error (.processingFailed reason) => .Failed reason
  | .error (.timedOut _) => .TimedOut

/-- The terminal state-machine value a finished staging run denotes. -/
def runOutcome (obs : Nat → FileStateObs) : UploadOutcome :=
  outcomeOfStaging (uploadAudioFileViaFilesApi obs)

/-! ## Word-processor renderer: speaker-label detection (src/reports/docx.ts)

`parseTranscriptLine` matches the line against the anchored regexes
`^(\[?[A-Z][A-Za-z0-9\s]+\]?:)` and `^([A-Z][A-Za-z0-9\s]+:)` in order.
The matcher below implements exactly these patterns with JavaScript's
greedy backtracking, returning the length of capture group 1. -/

/-- The `[A-Z]` class. -/
def isAsciiUpper (c : Char) : Bool := 'A' ≤ c && c ≤ 'Z'

/-- The `[A-Za-z0-9\s]` class of the speaker patterns. -/
def isLabelBodyChar (c : Char) : Bool :=
  ('A' ≤ c && c ≤ 'Z') || ('a' ≤ c && c ≤ 'z') || ('0' ≤ c && c ≤ '9') || isJsSpace c

/-- Tail matcher for `\]?:`: greedily take `]` before the colon when both
are present; the number of consumed characters, or failure. -/
def closeThenColon : List Char → Option Nat
  | ']' :: ':' :: _ => some 2
  | ':' :: _ => some 1
  | _ => none

/-- Tail matcher for a bare `:`. -/
def colonOnly : List Char → Option Nat
  | ':' :: _ => some 1
  | _ => none

/-- Greedy `[A-Za-z0-9\s]+` followed by the given tail matcher: consume
as many class characters as possible, backtracking one at a time until
the tail matches; the total number of consumed characters, or failure. -/
def bodyPlus (tail : List Char → Option Nat) : List Char → Option Nat
  | [] => none
  | c :: rest =>
    if isLabelBodyChar c then
      match bodyPlus tail rest with
      | some n => some (n + 1)
      | none =>
        match tail rest with
        | some m => some (1 + m)
        | none => none
    else none

/-- Length matched by `^(\[?[A-Z][A-Za-z0-9\s]+\]?:)`; the optional `[`
is taken greedily, and since `[` is not in `[A-Z]` the backtrack without
it always fails. -/
def matchPattern1 : List Char → Option Nat
  | '[' :: c :: rest =>
      if isAsciiUpper c then (bodyPlus closeThenColon rest).map (· + 2) else none
  | c :: rest =>
      if isAsciiUpper c then (bodyPlus closeThenColon rest).map (· + 1) else none
  | [] => none

/-- Length matched by `^([A-Z][A-Za-z0-9\s]+:)`. -/
def matchPattern2 : List Char → Option Nat
  | c :: rest =>
      if isAsciiUpper c then (bodyPlus colonOnly rest).map (· + 1) else none
  | [] => none

/-- A rendered text run of the DOCX transcript: the bold accent-colored
speaker-label run, or a normal-text run. -/
inductive TextRun
  | speaker (text : String)
  | plain (text : String)
deriving DecidableEq

/-- src/reports/docx.ts `parseTranscriptLine`: on a match, the matched
prefix becomes the bold speaker run and the trimmed remainder (with one
leading space reinserted when non-empty) the plain run; otherwise the
whole line is one plain run. -/
def parseTranscriptLine (line : String) : List TextRun :=
  let cs := line.toList
  match (matchPattern1 cs).orElse (fun _ => matchPattern2 cs) with
  | some n =>
    let speakerLabel : String := ⟨cs.take n⟩
    let content := jsTrim ⟨cs.drop n⟩
    [.speaker speakerLabel,
     .plain (if content.length > 0 then " " ++ content else "")]
  | none => [.plain line]

/-- The three shapes of DOCX transcript paragraph built by
src/reports/docx.ts `createTranscriptParagraphs`: the no-content notice,
a parsed non-empty line, or the spacing-only blank paragraph. -/
inductive TranscriptBlock
  | noContentNotice
  | line (runs : List TextRun)
  | blank
deriving DecidableEq

/-- src/reports/docx.ts `createTranscriptParagraphs` (lines 209-240). -/
def createTranscriptParagraphs (transcriptLines : List String) : List TranscriptBlock :=
  if transcriptLines.length = 0 then
    [.noContentNotice]
  else
    transcriptLines.map (fun line =>
      if line.length > 0 then .line (parseTranscriptLine line) else .blank)

/-! ## Markdown escaping (src/utils/validation.ts `escapeMarkdown`) -/

/-- JavaScript `replace(/c/g, r)` for a single-character pattern. -/
def replaceChar (c : Char) (r : List Char) : List Char → List Char
  | [] => []
  | x :: xs => if x = c then r ++ replaceChar c r xs else x :: replaceChar c r xs

/-- JavaScript `replace(/\r?\n/g, br)`: each `\n`, together with an
immediately preceding `\r` when present, becomes `br`. -/
def replaceNewlines (br : List Char) : List Char → List Char
  | [] => []
  | '\r' :: '\n' :: rest => br ++ replaceNewlines br rest
  | '\n' :: rest => br ++ replaceNewlines br rest
  | x :: rest => x :: replaceNewlines br rest

/-- The ten single-character replacement steps of `escapeMarkdown`, in
source order (the final `\r?\n` step follows separately). -/
def escSteps : List (Char × List Char) :=
  [('\\', "\\\\".toList),
   ('*', "\\*".toList),
   ('_', "\\_".toList),
   ('[', "\\[".toList),
   (']', "\\]".toList),
   (Char.ofNat 96, "\\`".toList),
   ('<', "&lt;".toList),
   ('>', "&gt;".toList),
   ('&', "&amp;".toList),
   ('|', "\\|".toList)]

/-- Apply a list of single-character replacement steps left to right. -/
def applySteps (steps : List (Char × List Char)) (cs : List Char) : List Char :=
  steps.foldl (fun acc step => replaceChar step.1 step.2 acc) cs

/-- src/utils/validation.ts `escapeMarkdown`: the chained `replace`
calls, ending with the newline step. -/
def escapeMarkdown (text : String) : String :=
  ⟨replaceNewlines "<br />".toList (applySteps escSteps text.toList)⟩

/-! ## Report data builder (src/reports/builder.ts `buildReportData`) -/

/-- src/types.ts `SpeakerProfile`. -/
structure SpeakerProfile where
  label : String
  description : Option String
deriving DecidableEq

/-- src/types.ts `ReportMetadataEntry`. -/
structure ReportMetadataEntry where
  label : String
  value : String
deriving DecidableEq

/-- src/types.ts `ReportData`. -/
structure ReportData where
  title : String
  subtitle : String
  metadata : List ReportMetadataEntry
  transcriptLines : List String
deriving DecidableEq

/-- src/types.ts `TranscriptionReportContext`. -/
structure TranscriptionReportContext where
  audioFilePath : String
  modelChoice : ModelChoice
  speakers : Option (List SpeakerProfile)
  usageMetadata : Option UsageMetadata

/-- Node `path.basename` as used on the POSIX paths of this tool: the
component after the last `/`. -/
def basename (p : String) : String :=
  (p.splitOn "/").getLastD p

/-- src/utils/formatting.ts `formatNumber`, with `0` for an absent
count.  Locale thousands-grouping is environment presentation and is
modelled as plain decimal rendering; no claim depends on the digits. -/
def formatNumber (value : Option Nat) : String :=
  match value with
  | none => "0"
  | some v => toString v

/-- src/utils/formatting.ts `toCurrency`.  The `toFixed` decimal
rounding is environment presentation; the exact amount is rendered
instead, since no claim depends on the digit string. -/
def toCurrency (value : ℚ) : String := "$" ++ toString value

/-- JavaScript `split(/\r?\n/)`: split on each `\n`, consuming an
immediately preceding `\r`; splitting any list yields at least one
(possibly empty) piece. -/
def splitRN : List Char → List (List Char)
  | [] => [[]]
  | '\r' :: '\n' :: rest => [] :: splitRN rest
  | '\n' :: rest => [] :: splitRN rest
  | c :: rest =>
    match splitRN rest with
    | l :: ls => (c :: l) :: ls
    | [] => [[c]]

/-- src/reports/builder.ts `buildReportData`.  `generatedAtDisplay`
stands for `generatedAt.toLocaleString()` (environment-dependent date
rendering). -/
def buildReportData (transcription : String) (context : TranscriptionReportContext)
    (generatedAtDisplay : String) : ReportData :=
  let speakersEntry : ReportMetadataEntry :=
    match context.speakers with
    | some speakers =>
      if speakers.length > 0 then
        { label := "Speakers",
          value := String.intercalate "; " (speakers.map (fun speaker =>
            match speaker.description with
            | some d => speaker.label ++ " (" ++ d ++ ")"
            | none => speaker.label)) }
      else { label := "Speakers", value := "Not provided" }
    | none => { label := "Speakers", value := "Not provided" }
  let usageEntries : List ReportMetadataEntry :=
    match context.usageMetadata with
    | none => []
    | some usage =>
      let tokenEntries : List ReportMetadataEntry :=
        [{ label := "Prompt Tokens", value := formatNumber usage.promptTokenCount },
         { label := "Output Tokens", value := formatNumber usage.candidatesTokenCount },
         { label := "Total Tokens", value := formatNumber usage.totalTokenCount }]
      match estimateCost context.modelChoice (some usage) with
      | some costEstimate =>
        tokenEntries ++
          [{ label := "Estimated Cost",
             value := toCurrency costEstimate.totalCost ++ " (input " ++
               toCurrency costEstimate.inputCost ++ ", output " ++
               toCurrency costEstimate.outputCost ++ ")" }]
      | none => tokenEntries
  { title := "Transcription Report",
    subtitle := basename context.audioFilePath,
    metadata :=
      [{ label := "Source File", value := basename context.audioFilePath },
       { label := "Model", value := modelChoiceName context.modelChoice },
       { label := "Generated", value := generatedAtDisplay }] ++
      [speakersEntry] ++ usageEntries,
    transcriptLines := (splitRN transcription.toList).map (fun l => jsTrimEnd ⟨l⟩) }

/-! ## Plain-markup renderer (src/reports/markdown.ts `buildMarkdownReport`) -/

/-- Lines 26-36 of src/reports/markdown.ts: the transcript section is
the no-content notice for an empty line sequence, and otherwise each
line verbatim (an empty line is pushed as the empty string). -/
def markdownTranscriptSection (transcriptLines : List String) : List String :=
  if transcriptLines.length = 0 then
    ["_No transcript content returned by the model._"]
  else
    transcriptLines.map (fun line => if line.length = 0 then "" else line)

/-- The ordered lines pushed by src/reports/markdown.ts
`buildMarkdownReport` before the final `join("\n")`. -/
def markdownLines (data : ReportData) : List String :=
  ["# " ++ data.title, "", "_" ++ data.subtitle ++ "_", "", "---", "",
   "## Session Details", "", "| Detail | Value |", "| --- | --- |"] ++
  data.metadata.map (fun entry =>
    "| " ++ escapeMarkdown entry.label ++ " | " ++ escapeMarkdown entry.value ++ " |") ++
  ["", "## Transcript", ""] ++
  markdownTranscriptSection data.transcriptLines ++
  ["", "---", "", "_Generated automatically by Gemini Audio Transcriber._"]

/-- src/reports/markdown.ts `buildMarkdownReport`. -/
def buildMarkdownReport (data : ReportData) : String :=
  String.intercalate "\n" (markdownLines data)

/-! ## Report publisher (src/reports/index.ts `saveTranscriptionReport`) -/

/-- src/types.ts `OutputFormat`. -/
inductive OutputFormat
  | md
  | docx
  | pdf
deriving DecidableEq

/-- The extension of each format (src/config.ts `OUTPUT_FORMATS`). -/
def formatExtension : OutputFormat → String
  | .md => ".md"
  | .docx => ".docx"
  | .pdf => ".pdf"

/-- `format.toUpperCase()` as used in the error messages. -/
def formatName : OutputFormat → String
  | .md => "MD"
  | .docx => "DOCX"
  | .pdf => "PDF"

/-- Environment feeding the publisher's effects: the outcome of
rendering-and-writing each format, and of uploading its file to S3. -/
structure PublishEnv where
  writeOutcome : OutputFormat → Except String Unit
  uploadOutcome : OutputFormat → Except String String

/-- Observable trace of one `saveTranscriptionReport` call: locally
written paths, uploaded remote locations, and logged error lines. -/
structure PublishTrace where
  savedFiles : List String
  s3UploadedFiles : List String
  errorLog : List String
deriving DecidableEq

/-- The `logger.error` line for a failed render/write (line 82). -/
def saveErrorMessage (format : OutputFormat) (e : String) : String :=
  "Failed to save " ++ formatName format ++ " report: " ++ e

/-- The `logger.error` line for a failed S3 upload (lines 74-79). -/
def uploadErrorMessage (format : OutputFormat) (e : String) : String :=
  "Failed to upload " ++ formatName format ++ " report to S3: " ++ e

/-- Lines 39-84 of src/reports/index.ts: the per-format loop.  A write
failure is caught, logged and the loop continues; after a successful
write the path is recorded and, when an S3 uploader is configured, the
upload runs under its own catch so its failure is only logged. -/
def saveGo (env : PublishEnv) (s3Enabled : Bool) (baseFilename : String) :
    List OutputFormat → PublishTrace → PublishTrace
  | [], acc => acc
  | format :: rest, acc =>
    let targetPath := baseFilename ++ formatExtension format
    match env.writeOutcome format with
    | .error e =>
        saveGo env s3Enabled baseFilename rest
          { acc with errorLog := acc.errorLog ++ [saveErrorMessage format e] }
    | .ok _ =>
        let acc1 := { acc with savedFiles := acc.savedFiles ++ [targetPath] }
        if s3Enabled then
          match env.uploadOutcome format with
          | .ok remoteLocation =>
              saveGo env s3Enabled baseFilename rest
                { acc1 with s3UploadedFiles := acc1.s3UploadedFiles ++ [remoteLocation] }
          | .error e =>
              saveGo env s3Enabled baseFilename rest
                { acc1 with errorLog := acc1.errorLog ++ [uploadErrorMessage format e] }
        else
          saveGo env s3Enabled baseFilename rest acc1

/-- src/reports/index.ts `saveTranscriptionReport` from the format loop
onward (directory creation and filename assembly precede it). -/
def saveTranscriptionReport (env : PublishEnv) (s3Enabled : Bool)
    (baseFilename : String) (formats : List OutputFormat) : PublishTrace :=
  saveGo env s3Enabled baseFilename formats ⟨[], [], []⟩

/-- Whether the write of a format succeeds in the given environment. -/
def writeSucceeds (env : PublishEnv) (format : OutputFormat) : Bool :=
  match env.writeOutcome format with
  | .ok _ => true
  | .error _ => false

/-- Whether the upload of a format succeeds in the given environment. -/
def uploadSucceeds (env : PublishEnv) (format : OutputFormat) : Bool :=
  match env.uploadOutcome format with
  | .ok _ => true
  | .error _ => false

/-- The remote location an upload yields (unused on upload failure). -/
def uploadLocation (env : PublishEnv) (format : OutputFormat) : String :=
  match env.uploadOutcome format with
  | .ok remoteLocation => remoteLocation
  | .error _ => ""

/-- The error lines the loop logs for one format. -/
def formatLogLines (env : PublishEnv) (s3Enabled : Bool) (format : OutputFormat) :
    List String :=
  match env.writeOutcome format with
  | .error e => [saveErrorMessage format e]
  | .ok _ =>
    if s3Enabled then
      match env.uploadOutcome format with
      | .ok _ => []
      | .error e => [uploadErrorMessage format e]
    else []

/-! ## Concrete environments used by counterexamples and witnesses -/

/-- Environment whose first call returns a whitespace-only transcript and
whose later calls would succeed: exercises the empty-result path. -/
def envC1 : OrchestratorEnv :=
  { stagingOutcome := fun _ => .ok "files/abc",
    callOutcome := fun attempt =>
      if attempt = 1 then .success "   " none
      else .success "recovered transcript" none }

/-- Environment whose staging always succeeds. -/
def envC3ok : OrchestratorEnv :=
  { stagingOutcome := fun _ => .ok "files/u",
    callOutcome := fun _ => .success "hello" none }

/-- Environment whose staging always throws a rate-limit-signature error. -/
def envC3retry : OrchestratorEnv :=
  { stagingOutcome := fun _ => .error "429 Too Many Requests",
    callOutcome := fun _ => .success "hello" none }

/-- Environment whose call fails with a rate-limit signature on the first
two attempts and succeeds on the third. -/
def envC7 : OrchestratorEnv :=
  { stagingOutcome := fun _ => .ok "files/u",
    callOutcome := fun attempt =>
      if attempt < 3 then .failure "429 rate limit exceeded"
      else .success "recovered transcript" none }

/-- Publisher environment in which the DOCX write fails and the PDF
upload fails. -/
def envC8 : PublishEnv :=
  { writeOutcome := fun format => if format = .docx then .error "boom" else .ok (),
    uploadOutcome := fun format => if format = .pdf then .error "net down" else .ok "s3://bucket/key" }

/-! ## Theorems -/

/-- Both rates of every pricing entry are nonnegative. -/
lemma MODEL_PRICING_nonneg (m : ModelChoice) :
    0 ≤ (MODEL_PRICING m).inputPerMillion ∧ 0 ≤ (MODEL_PRICING m).outputPerMillion := by
  cases m <;> constructor <;> norm_num [ MODEL_PRICING]

/-- C5.  For every supported model identifier, `estimateCost` returns
`none` when usage is absent (every supported identifier has a pricing
entry in `MODEL_PRICING`, so the no-pricing-entry guard of the source can
never fire and that disjunct is vacuous); for present usage and the
(inherently nonnegative) token counts, it returns nonnegative
`inputCost` and `outputCost` computed as tokens divided by one million
times the per-million rate, and `totalCost` exactly their sum. -/
theorem claim_C5_cost_model : ∀ m : ModelChoice,
    estimateCost m none = none ∧
    ∀ u : UsageMetadata, ∃ c : CostEstimate,
      estimateCost m (some u) = some c ∧
      c.inputCost =
        ((u.promptTokenCount.getD 0 : ℚ)) / 1000000 * (MODEL_PRICING m).inputPerMillion ∧
      c.outputCost =
        ((u.candidatesTokenCount.getD 0 : ℚ)) / 1000000 * (MODEL_PRICING m).outputPerMillion ∧
      0 ≤ c.inputCost ∧ 0 ≤ c.outputCost ∧
      c.totalCost = c.inputCost + c.outputCost := by
  intro m
  refine ⟨rfl, fun u => ⟨_, rfl, rfl, rfl, ?_, ?_, rfl⟩⟩
  · exact mul_nonneg (div_nonneg (Nat.cast_nonneg _) (by norm_num))
      (MODEL_PRICING_nonneg m).1
  · exact mul_nonneg (div_nonneg (Nat.cast_nonneg _) (by norm_num))
      (MODEL_PRICING_nonneg m).2

/-- C6.  Every file size at most the 15 MiB inline threshold selects the
`Inline` strategy (and the orchestrator's inline flag is true); every
size strictly above it, within the 500 MiB hard ceiling, selects
`Staged` (inline flag false). -/
theorem claim_C6_strategy : ∀ fileSizeBytes : Nat,
    (fileSizeBytes ≤ INLINE_UPLOAD_MAX_BYTES →
      selectStrategy fileSizeBytes = .Inline ∧ useInlineUpload fileSizeBytes = true) ∧
    (INLINE_UPLOAD_MAX_BYTES < fileSizeBytes → fileSizeBytes ≤ MAX_AUDIO_FILE_SIZE →
      selectStrategy fileSizeBytes = .Staged ∧ useInlineUpload fileSizeBytes = false) := by
  intro fileSizeBytes
  constructor
  · intro h
    exact ⟨by simp [selectStrategy, h], by simp [useInlineUpload, h]⟩
  · intro h _
    exact ⟨by simp [selectStrategy, h, Nat.not_le_of_lt h],
           by simp [useInlineUpload, Nat.not_le_of_lt h]⟩

/-- Witness for C6 at the threshold boundary sizes. -/
theorem claim_C6_witness :
    (selectStrategy (15 * 1024 * 1024) = .Inline ∧
      useInlineUpload (15 * 1024 * 1024) = true) ∧
    (selectStrategy (15 * 1024 * 1024 + 1) = .Staged ∧
      useInlineUpload (15 * 1024 * 1024 + 1) = false) :=
  ⟨(claim_C6_strategy (15 * 1024 * 1024)).1 (by norm_num [INLINE_UPLOAD_MAX_BYTES]),
   (claim_C6_strategy (15 * 1024 * 1024 + 1)).2
     (by norm_num [INLINE_UPLOAD_MAX_BYTES])
     (by norm_num [MAX_AUDIO_FILE_SIZE])⟩

/-- Counterexample to C2 as stated: the line `Dr. Smith: Hello there`
does not match the speaker patterns, because `.` is outside the
`[A-Za-z0-9\s]` label class, so the renderer emits one plain run equal
to the whole line instead of a bold label run plus a plain run. -/
theorem claim_C2_counterexample :
    parseTranscriptLine "Dr. Smith: Hello there" =
      [.plain "Dr. Smith: Hello there"] ∧
    parseTranscriptLine "Dr. Smith: Hello there" ≠
      [.speaker "Dr. Smith:", .plain " Hello there"] := by
  exact ⟨rfl, by decide⟩

/-- C2 (amended).  The line `Dr. Smith: Hello there` yields a single
plain run equal to the input (the period in `Dr.` is outside the label
character class); a label of letters/digits/spaces such as
`Speaker 1: Hello there` yields the bold label run `Speaker 1:` and the
plain run ` Hello there`; `just plain text` yields a single plain run
equal to the input. -/
theorem claim_C2_amended_runs :
    parseTranscriptLine "Dr. Smith: Hello there" =
      [.plain "Dr. Smith: Hello there"] ∧
    parseTranscriptLine "Speaker 1: Hello there" =
      [.speaker "Speaker 1:", .plain " Hello there"] ∧
    parseTranscriptLine "just plain text" = [.plain "just plain text"] :=
  ⟨rfl, rfl, rfl⟩

/-- One-step unfolding of the retry loop. -/
lemma transcribeGo_succ (env : OrchestratorEnv) (inlineUpload : Bool) (cfg : ApiConfig)
    (fuel attempt : Nat) (st : LoopState) (lastError : String) :
    transcribeGo env inlineUpload cfg (fuel + 1) attempt st lastError =
      match attemptOnce env inlineUpload attempt st with
      | (.ok (text, usage), st') =>
          { result := .ok text usage,
            stagingCalls := st'.stagingCalls, delays := st'.delays }
      | (.error e, st') =>
          if attempt < cfg.maxRetries && isRetryableError e then
            transcribeGo env inlineUpload cfg fuel (attempt + 1)
              { st' with delays := st'.delays ++ [cfg.retryDelayMs * attempt] } e
          else
            { result := .failed (finalFailureMessage cfg.maxRetries e),
              stagingCalls := st'.stagingCalls, delays := st'.delays } := rfl

/-- With the inline strategy the attempt never stages. -/
lemma attemptOnce_inline (env : OrchestratorEnv) (attempt : Nat) (st : LoopState) :
    attemptOnce env true attempt st = (attemptCall env attempt, st) := rfl

/-- Once a file URI is held, the attempt does not stage again. -/
lemma attemptOnce_of_fileUri_some (env : OrchestratorEnv) (inlineUpload : Bool)
    (attempt : Nat) (st : LoopState) (uri : String) (h : st.fileUri = some uri) :
    attemptOnce env inlineUpload attempt st = (attemptCall env attempt, st) := by
  unfold attemptOnce
  rw [h]
  simp

/-- With the staged strategy and no URI held, a successful staging
records the URI and one more staging call, then issues the call. -/
lemma attemptOnce_staged_ok (env : OrchestratorEnv) (attempt : Nat) (st : LoopState)
    (uri : String) (h0 : st.fileUri = none)
    (hs : env.stagingOutcome st.stagingCalls = .ok uri) :
    attemptOnce env false attempt st =
      (attemptCall env attempt,
       { st with fileUri := some uri, stagingCalls := st.stagingCalls + 1 }) := by
  unfold attemptOnce
  rw [h0]
  simp [hs]

/-- With the staged strategy and no URI held, a staging failure is the
attempt's error and the call is not reached. -/
lemma attemptOnce_staged_error (env : OrchestratorEnv) (attempt : Nat) (st : LoopState)
    (e : String) (h0 : st.fileUri = none)
    (hs : env.stagingOutcome st.stagingCalls = .error e) :
    attemptOnce env false attempt st =
      (.error e, { st with stagingCalls := st.stagingCalls + 1 }) := by
  unfold attemptOnce
  rw [h0]
  simp [hs]

/-- A whitespace-only response text makes the attempt's call error the
empty-transcription message. -/
lemma attemptCall_empty (env : OrchestratorEnv) (attempt : Nat) (text : String)
    (usage : Option UsageMetadata)
    (hcall : env.callOutcome attempt = .success text usage)
    (hempty : (jsTrim text).length = 0) :
    attemptCall env attempt = .error "API returned empty transcription" := by
  unfold attemptCall
  rw [hcall]
  simp [hempty]

/-- The empty-transcription error message carries none of the five
retryable signatures. -/
lemma emptyTranscription_not_retryable :
    isRetryableError "API returned empty transcription" = false := rfl

/-- Counterexample to C1 as stated: in `envC1` the first attempt returns
the whitespace transcript and every later attempt would succeed, yet the
orchestration fails at once with the empty-transcription error, invoking
no backoff delay and no further attempt, because that error is not
classified retryable. -/
theorem claim_C1_counterexample :
    transcribeAndDiarize envC1 0 =
      { result := .failed
          "Failed to transcribe after 3 attempts: API returned empty transcription",
        stagingCalls := 0, delays := [] } ∧
    isRetryableError "API returned empty transcription" = false :=
  ⟨rfl, rfl⟩

/-- C1 (amended).  An empty or whitespace-only transcript returned by
the transcription call is treated as a failure (the empty-transcription
error), not a success; however that error matches none of the retryable
signatures, so the orchestrator aborts immediately with the final
failure message instead of continuing the retry loop. -/
theorem claim_C1_empty_result (env : OrchestratorEnv) (fileSizeBytes : Nat)
    (text : String) (usage : Option UsageMetadata)
    (hsize : fileSizeBytes ≤ INLINE_UPLOAD_MAX_BYTES)
    (hcall : env.callOutcome 1 = .success text usage)
    (hempty : (jsTrim text).length = 0) :
    transcribeAndDiarize env fileSizeBytes =
      { result := .failed
          (finalFailureMessage API_CONFIG.maxRetries "API returned empty transcription"),
        stagingCalls := 0, delays := [] } ∧
    isRetryableError "API returned empty transcription" = false := by
  refine ⟨?_, rfl⟩
  have hinline : useInlineUpload fileSizeBytes = true := decide_eq_true hsize
  unfold transcribeAndDiarize
  rw [hinline]
  rw [show API_CONFIG.maxRetries = 2 + 1 from rfl, transcribeGo_succ,
    attemptOnce_inline,
    attemptCall_empty env 1 text usage hcall hempty]
  simp [emptyTranscription_not_retryable]
  rfl

/-- Witness for C1 applying the amended theorem to `envC1`. -/
theorem claim_C1_witness :
    transcribeAndDiarize envC1 0 =
      { result := .failed
          (finalFailureMessage API_CONFIG.maxRetries "API returned empty transcription"),
        stagingCalls := 0, delays := [] } ∧
    isRetryableError "API returned empty transcription" = false :=
  claim_C1_empty_result envC1 0 "   " none (by norm_num [INLINE_UPLOAD_MAX_BYTES]) rfl rfl

/-- Once a file URI is held, no later iteration of the retry loop stages
again: the staging-call counter is unchanged by the rest of the run. -/
lemma transcribeGo_stagingCalls_of_some (env : OrchestratorEnv) (inlineUpload : Bool)
    (cfg : ApiConfig) :
    ∀ (fuel attempt : Nat) (st : LoopState) (lastError uri : String),
      st.fileUri = some uri →
      (transcribeGo env inlineUpload cfg fuel attempt st lastError).stagingCalls =
        st.stagingCalls := by
  intro fuel
  induction fuel with
  | zero => intro attempt st lastError uri _; rfl
  | succ fuel ih =>
    intro attempt st lastError uri h
    rw [transcribeGo_succ, attemptOnce_of_fileUri_some env inlineUpload attempt st uri h]
    cases hc : attemptCall env attempt with
    | ok p => rfl
    | error e =>
      by_cases hr : (attempt < cfg.maxRetries && isRetryableError e) = true
      · simp only [hr, if_true]
        exact ih (attempt + 1) _ e uri h
      · simp only [Bool.not_eq_true] at hr
        simp [hr]

/-- C3 (amended).  With the staged strategy, a successful staging
happens at most once per orchestration call: the remote reference is
reused by every later retry attempt, so the stager is invoked exactly
once however many attempts follow.  A staging failure whose message
carries no retryable signature is terminal for the call: the run ends
at once with the final failure message, no delay and no further staging.
(A staging failure whose message does carry a retryable signature is,
however, re-attempted by the shared retry loop — see the
counterexample.) -/
theorem claim_C3_staging_once (env : OrchestratorEnv) (fileSizeBytes : Nat)
    (hsize : INLINE_UPLOAD_MAX_BYTES < fileSizeBytes) :
    (∀ uri, env.stagingOutcome 0 = .ok uri →
      (transcribeAndDiarize env fileSizeBytes).stagingCalls = 1) ∧
    (∀ e, env.stagingOutcome 0 = .error e → isRetryableError e = false →
      transcribeAndDiarize env fileSizeBytes =
        { result := .failed (finalFailureMessage API_CONFIG.maxRetries e),
          stagingCalls := 1, delays := [] }) := by
  have hinline : useInlineUpload fileSizeBytes = false := by
    simp [useInlineUpload, Nat.not_le_of_lt hsize]
  constructor
  · intro uri hs
    unfold transcribeAndDiarize
    rw [hinline]
    rw [show API_CONFIG.maxRetries = 2 + 1 from rfl, transcribeGo_succ,
      attemptOnce_staged_ok env 1 _ uri rfl hs]
    cases hc : attemptCall env 1 with
    | ok p => rfl
    | error e =>
      by_cases hr : ((1 < API_CONFIG.maxRetries) && isRetryableError e) = true
      · simp only [hr, if_true]
        exact transcribeGo_stagingCalls_of_some env false API_CONFIG 2 2 _ e uri rfl
      · simp only [Bool.not_eq_true] at hr
        simp [hr]
  · intro e hs hr
    unfold transcribeAndDiarize
    rw [hinline]
    rw [show API_CONFIG.maxRetries = 2 + 1 from rfl, transcribeGo_succ,
      attemptOnce_staged_error env 1 _ e rfl hs]
    simp [hr]
    rfl

/-- Witness for C3: a run of `envC3ok` above the inline threshold stages
exactly once. -/
theorem claim_C3_witness :
    (transcribeAndDiarize envC3ok (15 * 1024 * 1024 + 1)).stagingCalls = 1 :=
  (claim_C3_staging_once envC3ok (15 * 1024 * 1024 + 1)
    (by norm_num [INLINE_UPLOAD_MAX_BYTES])).1 "files/u" rfl

/-- Counterexample to C3 as stated: when staging itself throws an error
carrying a retryable signature (here a 429 from the upload), the shared
catch retries the loop while the file URI is still unset, so staging is
re-attempted on every retry — three staging invocations in one
orchestration call, with two backoff delays after staging failures. -/
theorem claim_C3_counterexample :
    (transcribeAndDiarize envC3retry (15 * 1024 * 1024 + 1)).stagingCalls = 3 ∧
    transcribeAndDiarize envC3retry (15 * 1024 * 1024 + 1) =
      { result := .failed
          "Failed to transcribe after 3 attempts: 429 Too Many Requests",
        stagingCalls := 3, delays := [1000, 2000] } :=
  ⟨rfl, rfl⟩

/-- Iterating the stager step function fixes every terminal state. -/
lemma stagerStep_iterate_terminal (maxPollAttempts : Nat) (obs : Nat → FileStateObs)
    (o : UploadOutcome) (h : o.isTerminal = true) :
    ∀ k, (stagerStep maxPollAttempts obs)^[k] o = o := by
  intro k
  induction k with
  | zero => rfl
  | succ k ih =>
    rw [Function.iterate_succ_apply]
    cases o with
    | Ready uri => exact ih
    | Failed reason => exact ih
    | TimedOut => exact ih
    | Uploading => simp [UploadOutcome.isTerminal] at h
    | Processing n => simp [UploadOutcome.isTerminal] at h

/-- Iterating the step function from `Processing i` with exactly the
remaining poll budget (plus any surplus) computes the poll loop's
result. -/
lemma stagerStep_iterate_poll (maxPollAttempts : Nat) (obs : Nat → FileStateObs) :
    ∀ (fuel i k : Nat), i + fuel = maxPollAttempts →
      (stagerStep maxPollAttempts obs)^[fuel + 1 + k] (.Processing i) =
        outcomeOfStaging (pollLoop obs i fuel) := by
  intro fuel
  induction fuel with
  | zero =>
    intro i k hi
    rw [Nat.add_zero] at hi
    have hstep : stagerStep maxPollAttempts obs (.Processing i) = .TimedOut := by
      simp [stagerStep, hi]
    rw [show 0 + 1 + k = k + 1 from by omega, Function.iterate_succ_apply, hstep]
    exact stagerStep_iterate_terminal maxPollAttempts obs .TimedOut rfl k
  | succ fuel ih =>
    intro i k hi
    have hlt : i < maxPollAttempts := by omega
    rw [show fuel + 1 + 1 + k = (fuel + 1 + k) + 1 from by omega,
      Function.iterate_succ_apply]
    have hstep : stagerStep maxPollAttempts obs (.Processing i) =
        (match obs i with
         | .active uri => .Ready uri
         | .failed reason => .Failed (reason.getD "unknown failure")
         | .processing _ => .Processing (i + 1)) := by
      simp [stagerStep, hlt]
    rw [hstep]
    cases h : obs i with
    | active uri =>
      rw [show pollLoop obs i (fuel + 1) = .ok uri by simp [pollLoop, h]]
      exact stagerStep_iterate_terminal maxPollAttempts obs (.Ready uri) rfl _
    | failed reason =>
      rw [show pollLoop obs i (fuel + 1) =
        .error (.processingFailed (reason.getD "unknown failure")) by simp [pollLoop, h]]
      exact stagerStep_iterate_terminal maxPollAttempts obs
        (.Failed (reason.getD "unknown failure")) rfl _
    | processing label =>
      rw [show pollLoop obs i (fuel + 1) = pollLoop obs (i + 1) fuel by
        simp [pollLoop, h]]
      rw [show (fuel + 1 + k) = fuel + 1 + k from rfl]
      exact ih (i + 1) k (by omega)

/-- The poll loop times out exactly when every observation it examines
is a still-processing state. -/
lemma pollLoop_timedOut_iff (obs : Nat → FileStateObs) :
    ∀ (fuel i : Nat),
      (∃ s, pollLoop obs i fuel = .error (.timedOut s)) ↔
        ∀ j, j < fuel → (obs (i + j)).isProcessingState = true := by
  intro fuel
  induction fuel with
  | zero =>
    intro i
    constructor
    · intro _ j hj
      exact absurd hj (Nat.not_lt_zero j)
    · intro _
      exact ⟨stateLabel (obs i), rfl⟩
  | succ fuel ih =>
    intro i
    cases h : obs i with
    | active uri =>
      constructor
      · intro ⟨s, hs⟩
        rw [show pollLoop obs i (fuel + 1) = .ok uri by simp [pollLoop, h]] at hs
        exact absurd hs (by simp)
      · intro hall
        have := hall 0 (Nat.succ_pos fuel)
        rw [Nat.add_zero, h] at this
        simp [FileStateObs.isProcessingState] at this
    | failed reason =>
      constructor
      · intro ⟨s, hs⟩
        rw [show pollLoop obs i (fuel + 1) =
          .error (.processingFailed (reason.getD "unknown failure")) by
            simp [pollLoop, h]] at hs
        exact absurd hs (by simp)
      · intro hall
        have := hall 0 (Nat.succ_pos fuel)
        rw [Nat.add_zero, h] at this
        simp [FileStateObs.isProcessingState] at this
    | processing label =>
      rw [show pollLoop obs i (fuel + 1) = pollLoop obs (i + 1) fuel by
        simp [pollLoop, h]]
      rw [ih (i + 1)]
      constructor
      · intro hall j hj
        cases j with
        | zero => rw [Nat.add_zero, h]; rfl
        | succ j =>
          have := hall j (by omega)
          rw [show i + 1 + j = i + (j + 1) from by omega] at this
          exact this
      · intro hall j hj
        have := hall (j + 1) (by omega)
        rw [show i + (j + 1) = i + 1 + j from by omega] at this
        exact this

/-- C4.  The stager state machine read off the polling loop never
transitions out of its terminal states `Ready`, `Failed` and `TimedOut`;
iterating it from `Uploading` through the whole poll budget computes
exactly the staging run's outcome; and the run ends in the timeout error
if and only if all `maxPollAttempts` examined observations are
still-processing states, i.e. neither an active (`Ready`) nor a failed
poll result is ever observed within the attempt bound. -/
theorem claim_C4_stager_machine : ∀ obs : Nat → FileStateObs,
    (∀ uri, stagerStep FILES_API_CONFIG.maxPollAttempts obs (.Ready uri) = .Ready uri) ∧
    (∀ reason,
      stagerStep FILES_API_CONFIG.maxPollAttempts obs (.Failed reason) = .Failed reason) ∧
    stagerStep FILES_API_CONFIG.maxPollAttempts obs .TimedOut = .TimedOut ∧
    (∀ k, (stagerStep FILES_API_CONFIG.maxPollAttempts obs)^[FILES_API_CONFIG.maxPollAttempts + 2 + k]
        .Uploading = runOutcome obs) ∧
    ((∃ s, uploadAudioFileViaFilesApi obs = .error (.timedOut s)) ↔
      ∀ i, i < FILES_API_CONFIG.maxPollAttempts → (obs i).isProcessingState = true) := by
  intro obs
  refine ⟨fun uri => rfl, fun reason => rfl, rfl, ?_, ?_⟩
  · intro k
    rw [show FILES_API_CONFIG.maxPollAttempts + 2 + k =
      (FILES_API_CONFIG.maxPollAttempts + 1 + k) + 1 from by omega]
    rw [Function.iterate_succ_apply]
    rw [show stagerStep FILES_API_CONFIG.maxPollAttempts obs .Uploading =
      .Processing 0 from rfl]
    exact stagerStep_iterate_poll FILES_API_CONFIG.maxPollAttempts obs
      FILES_API_CONFIG.maxPollAttempts 0 k (Nat.zero_add _)
  · have h := pollLoop_timedOut_iff obs FILES_API_CONFIG.maxPollAttempts 0
    simp only [Nat.zero_add] at h
    exact h

/-- Witness for C4: an always-processing observation stream times out,
and the step function fixes `TimedOut`. -/
theorem claim_C4_witness :
    (∃ s, uploadAudioFileViaFilesApi (fun _ => .processing "PROCESSING") =
      .error (.timedOut s)) ∧
    stagerStep FILES_API_CONFIG.maxPollAttempts (fun _ => .processing "PROCESSING")
      .TimedOut = .TimedOut :=
  ⟨((claim_C4_stager_machine (fun _ => .processing "PROCESSING")).2.2.2.2).mpr
      (fun _ _ => rfl),
   (claim_C4_stager_machine (fun _ => .processing "PROCESSING")).2.2.1⟩

/-- An attempt never alters the delay log by itself (delays are appended
only by the retry branch of the loop). -/
lemma attemptOnce_delays (env : OrchestratorEnv) (inlineUpload : Bool)
    (attempt : Nat) (st : LoopState) :
    ((attemptOnce env inlineUpload attempt st).2).delays = st.delays := by
  unfold attemptOnce
  by_cases h : (!inlineUpload && st.fileUri.isNone) = true
  · simp only [h, if_true]
    cases hs : env.stagingOutcome st.stagingCalls <;> rfl
  · simp only [Bool.not_eq_true] at h
    simp only [h]
    rfl

/-- The delays appended by the rest of a run starting at `attempt` are
an initial segment of the linear sequence
`retryDelayMs * attempt, retryDelayMs * (attempt + 1), ...`. -/
lemma transcribeGo_delays_linear (env : OrchestratorEnv) (inlineUpload : Bool)
    (cfg : ApiConfig) :
    ∀ (fuel attempt : Nat) (st : LoopState) (lastError : String), ∃ k,
      (transcribeGo env inlineUpload cfg fuel attempt st lastError).delays =
        st.delays ++ (List.range' attempt k).map (fun a => cfg.retryDelayMs * a) := by
  intro fuel
  induction fuel with
  | zero =>
    intro attempt st lastError
    exact ⟨0, by simp [transcribeGo]⟩
  | succ fuel ih =>
    intro attempt st lastError
    rw [transcribeGo_succ]
    rcases hA : attemptOnce env inlineUpload attempt st with ⟨res, st'⟩
    have hd : st'.delays = st.delays := by
      have := attemptOnce_delays env inlineUpload attempt st
      rw [hA] at this
      exact this
    cases res with
    | ok p =>
      rcases p with ⟨text, usage⟩
      exact ⟨0, by simp [hd]⟩
    | error e =>
      by_cases hr : (attempt < cfg.maxRetries && isRetryableError e) = true
      · simp only [hr, if_true]
        rcases ih (attempt + 1)
          { st' with delays := st'.delays ++ [cfg.retryDelayMs * attempt] } e with ⟨k, hk⟩
        refine ⟨k + 1, ?_⟩
        rw [hk]
        simp only [hd]
        rw [List.append_assoc, List.range'_succ, List.map_cons, List.singleton_append]
      · simp only [Bool.not_eq_true] at hr
        simp only [hr]
        exact ⟨0, by simp [hd]⟩

/-- C7.  Backoff delays grow linearly: in every run the list of awaited
delays is exactly `retryDelayMs * 1, retryDelayMs * 2, ...` up to the
number of retries performed; and in the concrete run of `envC7`, whose
call fails twice with a rate-limit signature and then succeeds, the
orchestrator returns the successful result after exactly two backoff
delays (1000 ms then 2000 ms), each strictly greater than the one
before. -/
theorem claim_C7_linear_backoff :
    (∀ (env : OrchestratorEnv) (fileSizeBytes : Nat), ∃ k,
      (transcribeAndDiarize env fileSizeBytes).delays =
        (List.range' 1 k).map (fun a => API_CONFIG.retryDelayMs * a)) ∧
    transcribeAndDiarize envC7 0 =
      { result := .ok "recovered transcript" none,
        stagingCalls := 0, delays := [1000, 2000] } ∧
    (transcribeAndDiarize envC7 0).delays.length = 2 ∧
    List.Chain' (fun a b => a < b) (transcribeAndDiarize envC7 0).delays := by
  refine ⟨?_, rfl, rfl, ?_⟩
  · intro env fileSizeBytes
    rcases transcribeGo_delays_linear env (useInlineUpload fileSizeBytes) API_CONFIG
      API_CONFIG.maxRetries 1 { fileUri := none, stagingCalls := 0, delays := [] }
      "undefined" with ⟨k, hk⟩
    exact ⟨k, by simpa [transcribeAndDiarize] using hk⟩
  · rw [show (transcribeAndDiarize envC7 0).delays = [1000, 2000] from rfl]
    simp [List.chain'_cons]

/-- Full characterisation of the publisher loop from any accumulator:
written paths are exactly the successful writes, uploads exactly the
successful uploads among them (when enabled), and the log holds one line
per failure. -/
lemma saveGo_spec (env : PublishEnv) (s3Enabled : Bool) (baseFilename : String) :
    ∀ (formats : List OutputFormat) (acc : PublishTrace),
      saveGo env s3Enabled baseFilename formats acc =
        { savedFiles := acc.savedFiles ++
            (formats.filter (writeSucceeds env)).map
              (fun f => baseFilename ++ formatExtension f),
          s3UploadedFiles := acc.s3UploadedFiles ++
            (if s3Enabled then
              (formats.filter (fun f => writeSucceeds env f && uploadSucceeds env f)).map
                (uploadLocation env)
             else []),
          errorLog := acc.errorLog ++
            (formats.map (formatLogLines env s3Enabled)).flatten } := by
  intro formats
  induction formats with
  | nil =>
    intro acc
    simp [saveGo]
  | cons format rest ih =>
    intro acc
    cases hw : env.writeOutcome format with
    | error e =>
      have hws : writeSucceeds env format = false := by simp [writeSucceeds, hw]
      rw [show saveGo env s3Enabled baseFilename (format :: rest) acc =
        saveGo env s3Enabled baseFilename rest
          { acc with errorLog := acc.errorLog ++ [saveErrorMessage format e] } by
            simp [saveGo, hw]]
      rw [ih]
      simp [hws, formatLogLines, hw]
    | ok u =>
      have hws : writeSucceeds env format = true := by simp [writeSucceeds, hw]
      by_cases hs3 : s3Enabled = true
      · cases hu : env.uploadOutcome format with
        | ok remoteLocation =>
          have hus : uploadSucceeds env format = true := by simp [uploadSucceeds, hu]
          rw [show saveGo env s3Enabled baseFilename (format :: rest) acc =
            saveGo env s3Enabled baseFilename rest
              { acc with
                savedFiles := acc.savedFiles ++ [baseFilename ++ formatExtension format],
                s3UploadedFiles := acc.s3UploadedFiles ++ [remoteLocation] } by
                simp [saveGo, hw, hs3, hu]]
          rw [ih]
          simp [hws, hus, formatLogLines, hw, hu, uploadLocation, hs3]
        | error e =>
          have hus : uploadSucceeds env format = false := by simp [uploadSucceeds, hu]
          rw [show saveGo env s3Enabled baseFilename (format :: rest) acc =
            saveGo env s3Enabled baseFilename rest
              { acc with
                savedFiles := acc.savedFiles ++ [baseFilename ++ formatExtension format],
                errorLog := acc.errorLog ++ [uploadErrorMessage format e] } by
                simp [saveGo, hw, hs3, hu]]
          rw [ih]
          simp [hws, hus, formatLogLines, hw, hu, hs3]
      · have hs3' : s3Enabled = false := by
          cases s3Enabled
          · rfl
          · exact absurd rfl hs3
        rw [show saveGo env s3Enabled baseFilename (format :: rest) acc =
          saveGo env s3Enabled baseFilename rest
            { acc with savedFiles :=
                acc.savedFiles ++ [baseFilename ++ formatExtension format] } by
              simp [saveGo, hw, hs3']]
        rw [ih]
        simp [hws, formatLogLines, hw, hs3']

/-- C8.  Publishing handles each requested format independently: the
locally written files are exactly `{baseFilename}{extension}` for the
formats whose render/write succeeds, regardless of the other formats'
failures (each failure contributing one logged line); when remote upload
is enabled, the uploaded locations are exactly those of the successfully
written files whose upload succeeds, an upload failure being logged per
file without removing the local write; and in particular every format
whose write succeeds has its file recorded as written, whatever the
upload outcomes. -/
theorem claim_C8_publish_isolation :
    ∀ (env : PublishEnv) (s3Enabled : Bool) (baseFilename : String)
      (formats : List OutputFormat),
    saveTranscriptionReport env s3Enabled baseFilename formats =
      { savedFiles := (formats.filter (writeSucceeds env)).map
          (fun f => baseFilename ++ formatExtension f),
        s3UploadedFiles :=
          (if s3Enabled then
            (formats.filter (fun f => writeSucceeds env f && uploadSucceeds env f)).map
              (uploadLocation env)
           else []),
        errorLog := (formats.map (formatLogLines env s3Enabled)).flatten } ∧
    ∀ f ∈ formats, writeSucceeds env f = true →
      (baseFilename ++ formatExtension f) ∈
        (saveTranscriptionReport env s3Enabled baseFilename formats).savedFiles := by
  intro env s3Enabled baseFilename formats
  have h := saveGo_spec env s3Enabled baseFilename formats ⟨[], [], []⟩
  simp only [saveTranscriptionReport]
  constructor
  · simpa using h
  · intro f hf hw
    rw [h]
    simp only [List.nil_append]
    exact List.mem_map_of_mem _ (List.mem_filter.mpr ⟨hf, hw⟩)

/-- Witness for C8 on `envC8`, where the DOCX write fails and the PDF
upload fails: the markdown file is still written. -/
theorem claim_C8_witness :
    "base.md" ∈
      (saveTranscriptionReport envC8 true "base" [.md, .docx, .pdf]).savedFiles :=
  (claim_C8_publish_isolation envC8 true "base" [.md, .docx, .pdf]).2
    .md (by simp) rfl

/-- Splitting on line endings never yields an empty list of pieces. -/
lemma splitRN_ne_nil : ∀ cs : List Char, splitRN cs ≠ [] := by
  intro cs
  induction cs using splitRN.induct <;> simp_all [splitRN]

/-- A string of length zero is the empty string. -/
lemma string_length_zero_iff (s : String) : s.length = 0 ↔ s = "" := by
  constructor
  · intro h
    cases s with
    | mk data =>
      have : data.length = 0 := h
      rw [List.length_eq_zero] at this
      rw [this]
  · intro h
    rw [h]
    rfl

/-- C9.  For every input transcription string, `buildReportData` yields
at least one transcript line (splitting on line endings yields at least
one, possibly empty, piece); consequently a builder-produced `ReportData`
never takes the renderers' zero-length-transcript branch — the DOCX
transcript paragraphs never contain the no-content notice and the
markdown transcript section is the line list itself — and the empty
transcription yields exactly one empty line, rendered as the blank
(spacing-only) paragraph. -/
theorem claim_C9_nonempty_lines :
    ∀ (transcription : String) (context : TranscriptionReportContext)
      (generatedAtDisplay : String),
    1 ≤ (buildReportData transcription context generatedAtDisplay).transcriptLines.length ∧
    TranscriptBlock.noContentNotice ∉
      createTranscriptParagraphs
        (buildReportData transcription context generatedAtDisplay).transcriptLines ∧
    markdownTranscriptSection
        (buildReportData transcription context generatedAtDisplay).transcriptLines =
      (buildReportData transcription context generatedAtDisplay).transcriptLines ∧
    (buildReportData "" context generatedAtDisplay).transcriptLines = [""] ∧
    createTranscriptParagraphs
        ((buildReportData "" context generatedAtDisplay).transcriptLines) =
      [TranscriptBlock.blank] := by
  intro transcription context generatedAtDisplay
  have hlines : (buildReportData transcription context generatedAtDisplay).transcriptLines =
      (splitRN transcription.toList).map (fun l => jsTrimEnd ⟨l⟩) := rfl
  have hpos : 1 ≤
      (buildReportData transcription context generatedAtDisplay).transcriptLines.length := by
    rw [hlines, List.length_map]
    exact List.length_pos.mpr (splitRN_ne_nil transcription.toList)
  have hne : (buildReportData transcription context generatedAtDisplay).transcriptLines.length ≠ 0 := by
    omega
  refine ⟨hpos, ?_, ?_, rfl, rfl⟩
  · intro hmem
    rw [createTranscriptParagraphs, if_neg hne] at hmem
    rcases List.mem_map.mp hmem with ⟨line, _, heq⟩
    by_cases h : line.length > 0
    · rw [if_pos h] at heq
      exact TranscriptBlock.noConfusion heq
    · rw [if_neg h] at heq
      exact TranscriptBlock.noConfusion heq
  · rw [markdownTranscriptSection, if_neg hne]
    calc (buildReportData transcription context generatedAtDisplay).transcriptLines.map
          (fun line => if line.length = 0 then "" else line)
        = (buildReportData transcription context generatedAtDisplay).transcriptLines.map
            (fun line => line) := by
          apply List.map_congr_left
          intro line _
          by_cases h : line.length = 0
          · rw [if_pos h, (string_length_zero_iff line).mp h]
          · rw [if_neg h]
      _ = (buildReportData transcription context generatedAtDisplay).transcriptLines :=
          List.map_id' _

/-- A single-character replacement distributes over concatenation. -/
lemma replaceChar_append (c : Char) (r : List Char) :
    ∀ xs ys, replaceChar c r (xs ++ ys) = replaceChar c r xs ++ replaceChar c r ys := by
  intro xs ys
  induction xs with
  | nil => rfl
  | cons x xs ih => by_cases h : x = c <;> simp [replaceChar, h, ih]

/-- A chain of single-character replacements distributes over
concatenation. -/
lemma applySteps_append (steps : List (Char × List Char)) :
    ∀ xs ys, applySteps steps (xs ++ ys) = applySteps steps xs ++ applySteps steps ys := by
  induction steps with
  | nil => intro xs ys; rfl
  | cons s rest ih =>
    intro xs ys
    show applySteps rest (replaceChar s.1 s.2 (xs ++ ys)) =
      applySteps rest (replaceChar s.1 s.2 xs) ++ applySteps rest (replaceChar s.1 s.2 ys)
    rw [replaceChar_append]
    exact ih _ _

/-- The newline replacement distributes over a concatenation whose right
part does not begin with a line feed (so no `\r\n` pair can straddle the
boundary). -/
lemma replaceNewlines_append_of_head (br : List Char) :
    ∀ xs ys, ys.head? ≠ some '\n' →
      replaceNewlines br (xs ++ ys) = replaceNewlines br xs ++ replaceNewlines br ys := by
  intro xs
  induction xs using replaceNewlines.induct with
  | br => exact br
  | case1 =>
    intro ys _
    rw [List.nil_append, replaceNewlines.eq_1, List.nil_append]
  | case2 rest ih =>
    intro ys hys
    rw [List.cons_append, List.cons_append, replaceNewlines.eq_2, replaceNewlines.eq_2,
      ih ys hys, List.append_assoc]
  | case3 rest ih =>
    intro ys hys
    rw [List.cons_append, replaceNewlines.eq_3, replaceNewlines.eq_3, ih ys hys,
      List.append_assoc]
  | case4 x rest h1 h2 ih =>
    intro ys hys
    have h1' : ∀ rest_1, x = '\r' → rest ++ ys = '\n' :: rest_1 → False := by
      intro rest_1 hx hcat
      cases rest with
      | nil =>
        rw [List.nil_append] at hcat
        apply hys
        rw [hcat]
        rfl
      | cons d rest' =>
        rw [List.cons_append] at hcat
        injection hcat with hd ht
        exact h1 rest' hx (by rw [hd])
    rw [List.cons_append, replaceNewlines.eq_4 br x (rest ++ ys) h1' h2,
      replaceNewlines.eq_4 br x rest h1 h2, ih ys hys, List.cons_append]

/-- The newline replacement distributes over a concatenation whose left
part does not end with a carriage return. -/
lemma replaceNewlines_append_of_getLast (br : List Char) :
    ∀ xs ys, xs.getLast? ≠ some '\r' →
      replaceNewlines br (xs ++ ys) = replaceNewlines br xs ++ replaceNewlines br ys := by
  intro xs
  induction xs using replaceNewlines.induct with
  | br => exact br
  | case1 =>
    intro ys _
    rw [List.nil_append, replaceNewlines.eq_1, List.nil_append]
  | case2 rest ih =>
    intro ys hlast
    have hlast' : rest.getLast? ≠ some '\r' := by
      cases rest with
      | nil => simp
      | cons d rest' =>
        intro hc
        apply hlast
        rw [List.getLast?_cons_cons, List.getLast?_cons_cons]
        exact hc
    rw [List.cons_append, List.cons_append, replaceNewlines.eq_2, replaceNewlines.eq_2,
      ih ys hlast', List.append_assoc]
  | case3 rest ih =>
    intro ys hlast
    have hlast' : rest.getLast? ≠ some '\r' := by
      cases rest with
      | nil => simp
      | cons d rest' =>
        intro hc
        apply hlast
        rw [List.getLast?_cons_cons]
        exact hc
    rw [List.cons_append, replaceNewlines.eq_3, replaceNewlines.eq_3, ih ys hlast',
      List.append_assoc]
  | case4 x rest h1 h2 ih =>
    intro ys hlast
    cases rest with
    | nil =>
      have hx : x ≠ '\r' := by
        intro hc
        apply hlast
        rw [hc]
        rfl
      have h1' : ∀ rest_1, x = '\r' → [] ++ ys = '\n' :: rest_1 → False :=
        fun _ hxr _ => hx hxr
      rw [List.cons_append, List.nil_append, replaceNewlines.eq_4 br x ys h1' h2,
        replaceNewlines.eq_4 br x [] h1 h2, replaceNewlines.eq_1, List.cons_append,
        List.nil_append]
    | cons d rest' =>
      have hlast' : (d :: rest').getLast? ≠ some '\r' := by
        intro hc
        apply hlast
        rw [List.getLast?_cons_cons]
        exact hc
      have h1' : ∀ rest_1, x = '\r' → (d :: rest') ++ ys = '\n' :: rest_1 → False := by
        intro rest_1 hx hcat
        rw [List.cons_append] at hcat
        injection hcat with hd ht
        exact h1 rest' hx (by rw [hd])
      rw [List.cons_append, replaceNewlines.eq_4 br x ((d :: rest') ++ ys) h1' h2,
        replaceNewlines.eq_4 br x (d :: rest') h1 h2, ih ys hlast', List.cons_append]

/-- Every occurrence of `c` in the input leaves the block `M` (the full
escape pipeline's image of `c`) as an infix of the escaped output,
provided `M` survives the newline step and cannot merge with its
surroundings there. -/
lemma escape_infix_of_mem (c : Char) (m : Char) (M' : List Char)
    (hM : applySteps escSteps [c] = m :: M')
    (hMnl : replaceNewlines "<br />".toList (m :: M') = m :: M')
    (hhead : m ≠ '\n')
    (hlast : (m :: M').getLast? ≠ some '\r')
    (s : String) (hmem : c ∈ s.toList) :
    (m :: M') <:+: (escapeMarkdown s).toList := by
  obtain ⟨as, bs, hsplit⟩ := List.append_of_mem hmem
  have h1 : (escapeMarkdown s).toList =
      replaceNewlines "<br />".toList (applySteps escSteps s.toList) := rfl
  rw [h1, hsplit, show as ++ c :: bs = as ++ ([c] ++ bs) from rfl,
    applySteps_append, applySteps_append, hM]
  rw [replaceNewlines_append_of_head "<br />".toList (applySteps escSteps as)
    ((m :: M') ++ applySteps escSteps bs)
    (by rw [List.cons_append]; intro hc; injection hc with hc'; exact hhead hc')]
  rw [replaceNewlines_append_of_getLast "<br />".toList (m :: M')
    (applySteps escSteps bs) hlast]
  rw [hMnl]
  exact ⟨replaceNewlines "<br />".toList (applySteps escSteps as),
    replaceNewlines "<br />".toList (applySteps escSteps bs),
    by rw [List.append_assoc]⟩

/-- C10.  In the plain-markup renderer's metadata table the ampersand
replacement runs after the angle-bracket replacements, so any `<` or `>`
in a label or value reaches the output as the double-escaped
`&amp;lt;` / `&amp;gt;` (never as `&lt;` / `&gt;`: the single-escaped
forms of the lone characters are exactly the double-escaped strings);
pipes become `\|` and newlines `<br />` with no such re-escaping; and
each metadata entry is rendered in the table as the line
`| <escaped label> | <escaped value> |`. -/
theorem claim_C10_escape_order :
    (∀ s : String, '<' ∈ s.toList →
      "&amp;lt;".toList <:+: (escapeMarkdown s).toList) ∧
    (∀ s : String, '>' ∈ s.toList →
      "&amp;gt;".toList <:+: (escapeMarkdown s).toList) ∧
    escapeMarkdown "<" = "&amp;lt;" ∧
    escapeMarkdown ">" = "&amp;gt;" ∧
    escapeMarkdown "|" = "\\|" ∧
    escapeMarkdown "\n" = "<br />" ∧
    escapeMarkdown "a|b\nc" = "a\\|b<br />c" ∧
    (∀ (data : ReportData) (entry : ReportMetadataEntry), entry ∈ data.metadata →
      ("| " ++ escapeMarkdown entry.label ++ " | " ++ escapeMarkdown entry.value ++ " |") ∈
        markdownLines data) := by
  refine ⟨?_, ?_, rfl, rfl, rfl, rfl, rfl, ?_⟩
  · intro s hmem
    exact escape_infix_of_mem '<' '&' "amp;lt;".toList rfl rfl (by decide) (by decide) s hmem
  · intro s hmem
    exact escape_infix_of_mem '>' '&' "amp;gt;".toList rfl rfl (by decide) (by decide) s hmem
  · intro data entry hmem
    refine List.mem_append.mpr (Or.inl (List.mem_append.mpr (Or.inl
      (List.mem_append.mpr (Or.inl (List.mem_append.mpr (Or.inr ?_)))))))
    exact List.mem_map_of_mem _ hmem

/-- Witness for C10: a string containing `<` escapes to output
containing the double-escaped block. -/
theorem claim_C10_witness :
    "&amp;lt;".toList <:+: (escapeMarkdown "a<b").toList :=
  claim_C10_escape_order.1 "a<b" (by decide)

end GeminiTranscriber
